import Mathlib

/-!
Verification of the layout-generation core of `src/main.js`: frame
geometry and column layout (`createStructure`), solar-panel placement
(the two instancing loops inside `createStructure`), and the parking
layout (`generateParking`).  JavaScript floating-point arithmetic is
idealised as real arithmetic; `Math.ceil` / `Math.floor` become
`Int.ceil` / `Int.floor`; the successive results of `Math.random()`
are modelled as an explicit stream `g : ℕ → ℝ` consumed left to right
in source order.  Whole-group translations (`createStructure(offsetX,
offsetY)` sets `group.position`) are rendering composition and are not
part of the placement arithmetic modelled here.
-/

open Real

/-- Structure configuration: the five dimensional fields of
`CONFIG.structure` (src/main.js lines 7-15). -/
structure StructureCfg where
  length : ℝ
  width : ℝ
  columnSpacing : ℝ
  eavesHeight : ℝ
  ridgeHeight : ℝ

/-- The concrete `CONFIG.structure` value of the source:
length 96, width 12, columnSpacing 6, eavesHeight 5, ridgeHeight 5.9. -/
noncomputable def defaultStructure : StructureCfg :=
  ⟨96, 12, 6, 5, 5.9⟩

/-- Derived half-span `width / 2` (line 193). -/
noncomputable def halfSpan (c : StructureCfg) : ℝ := c.width / 2

/-- Derived rise `ridgeHeight - eavesHeight` (line 195). -/
noncomputable def rise (c : StructureCfg) : ℝ := c.ridgeHeight - c.eavesHeight

/-- Derived pitch angle `Math.atan(rise / halfSpan)` (line 196). -/
noncomputable def pitchRad (c : StructureCfg) : ℝ := Real.arctan (rise c / halfSpan c)

/-- Derived slope length `Math.sqrt(rise*rise + halfSpan*halfSpan)` (line 197). -/
noncomputable def slopeLen (c : StructureCfg) : ℝ :=
  Real.sqrt (rise c * rise c + halfSpan c * halfSpan c)

/-- Column tick count `Math.ceil(length / columnSpacing) + 1` (line 201). -/
noncomputable def colCount (c : StructureCfg) : ℤ :=
  ⌈c.length / c.columnSpacing⌉ + 1

/-- The z coordinate of column tick `i`:
`(i * columnSpacing) - (length / 2)` (line 206). -/
noncomputable def colZ (c : StructureCfg) (i : ℕ) : ℝ :=
  i * c.columnSpacing - c.length / 2

/-- Position of the left column of tick `i` (line 210):
`(-width/2, height/2, z)`. -/
noncomputable def colL (c : StructureCfg) (i : ℕ) : ℝ × ℝ × ℝ :=
  (-(c.width / 2), c.eavesHeight / 2, colZ c i)

/-- Position of the right column of tick `i` (line 217):
`(width/2, height/2, z)`. -/
noncomputable def colR (c : StructureCfg) (i : ℕ) : ℝ × ℝ × ℝ :=
  (c.width / 2, c.eavesHeight / 2, colZ c i)

/-- The column positions emitted by the loop of lines 205-237, in
emission order: for each tick the left column then the right column.
A negative loop bound runs the loop zero times, hence `Int.toNat`. -/
noncomputable def columns (c : StructureCfg) : List (ℝ × ℝ × ℝ) :=
  (List.range (colCount c).toNat).flatMap (fun i => [colL c i, colR c i])

/-- Solar configuration: the dimensional fields of `CONFIG.solar`
(lines 41-50): panel width/length in meters, grid shape, and the two
gaps (`gapX` along the building length, `gapY` along the slope). -/
structure SolarCfg where
  width : ℝ
  length : ℝ
  rowsPerSlope : ℕ
  panelsPerRow : ℕ
  gapX : ℝ
  gapY : ℝ

/-- The concrete `CONFIG.solar` value of the source. -/
noncomputable def defaultSolar : SolarCfg :=
  ⟨1.134, 1.762, 3, 83, 0.03, 0.05⟩

/-- Along-slope local offset of panel row `row` (line 316):
`row*(length+gapY) - (rowsPerSlope*length)/2 + length/2`. -/
noncomputable def xOffset (s : SolarCfg) (row : ℕ) : ℝ :=
  row * (s.length + s.gapY) - (s.rowsPerSlope * s.length) / 2 + s.length / 2

/-- Along-length local offset of panel column `col` (line 318):
`col*(width+gapX) - (panelsPerRow*width)/2`. -/
noncomputable def zOffset (s : SolarCfg) (col : ℕ) : ℝ :=
  col * (s.width + s.gapX) - (s.panelsPerRow * s.width) / 2

/-- Rotation of a vector about the z axis (THREE.js
`applyAxisAngle((0,0,1), θ)`, lines 328 and 366). -/
noncomputable def rotZvec (θ : ℝ) (v : ℝ × ℝ × ℝ) : ℝ × ℝ × ℝ :=
  (v.1 * Real.cos θ - v.2.1 * Real.sin θ, v.1 * Real.sin θ + v.2.1 * Real.cos θ, v.2.2)

/-- Position of the left-slope panel `(row, col)` (lines 307-337):
anchor `(-halfSpan/2, height + rise/2 + 0.2, 0)` plus the offset vector
`(xOffset, 0.05, zOffset)` rotated by `pitchRad` about the z axis. -/
noncomputable def leftPanelPos (c : StructureCfg) (s : SolarCfg) (row col : ℕ) : ℝ × ℝ × ℝ :=
  let cx := -(halfSpan c) / 2
  let cy := c.eavesHeight + rise c / 2 + 0.2
  let v := rotZvec (pitchRad c) (xOffset s row, 0.05, zOffset s col)
  (cx + v.1, cy + v.2.1, 0 + v.2.2)

/-- The fixed right-slope correction distance (line 364). -/
noncomputable def overhangFix : ℝ := 0.2

/-- Position of the right-slope panel `(row, col)` (lines 340-379):
anchor `(halfSpan/2, height + rise/2 + 0.2, 0)` corrected by
`cxFix = cx + cos(-pitch)*overhangFix`, `cyFix = cy - sin|−pitch|*overhangFix`,
plus the mirrored offset vector `(-xOffset, 0.05, zOffset)` rotated by
`-pitchRad` about the z axis. -/
noncomputable def rightPanelPos (c : StructureCfg) (s : SolarCfg) (row col : ℕ) : ℝ × ℝ × ℝ :=
  let cx := halfSpan c / 2
  let cy := c.eavesHeight + rise c / 2 + 0.2
  let pr := -(pitchRad c)
  let v := rotZvec pr (-(xOffset s row), 0.05, zOffset s col)
  let cxFix := cx + Real.cos pr * overhangFix
  let cyFix := cy - Real.sin |pr| * overhangFix
  (cxFix + v.1, cyFix + v.2.1, 0 + v.2.2)

/-- The mirrored left-slope construction for the right slope, with no
overhang correction: anchor `(halfSpan/2, height + rise/2 + 0.2, 0)`
plus the mirrored offset vector `(-xOffset, 0.05, zOffset)` rotated by
`-pitchRad`.  This is the construction the specification describes the
right-slope correction as being applied on top of. -/
noncomputable def rightPanelMirrorBase (c : StructureCfg) (s : SolarCfg) (row col : ℕ) :
    ℝ × ℝ × ℝ :=
  let cx := halfSpan c / 2
  let cy := c.eavesHeight + rise c / 2 + 0.2
  let v := rotZvec (-(pitchRad c)) (-(xOffset s row), 0.05, zOffset s col)
  (cx + v.1, cy + v.2.1, 0 + v.2.2)

/-- One emitted solar panel instance: its position and its rotation
about the z axis (`dummy.rotation.z`). -/
noncomputable def leftPanels (c : StructureCfg) (s : SolarCfg) : List ((ℝ × ℝ × ℝ) × ℝ) :=
  (List.range s.rowsPerSlope).flatMap (fun row =>
    (List.range s.panelsPerRow).map (fun col => (leftPanelPos c s row col, pitchRad c)))

/-- Right-slope panel instances, rotation `-pitchRad` (line 374). -/
noncomputable def rightPanels (c : StructureCfg) (s : SolarCfg) : List ((ℝ × ℝ × ℝ) × ℝ) :=
  (List.range s.rowsPerSlope).flatMap (fun row =>
    (List.range s.panelsPerRow).map (fun col => (rightPanelPos c s row col, -(pitchRad c))))

/-- All solar panel instances, left-slope loop then right-slope loop
(lines 307-379, instance index `pIdx` increasing). -/
noncomputable def solarInstances (c : StructureCfg) (s : SolarCfg) : List ((ℝ × ℝ × ℝ) × ℝ) :=
  leftPanels c s ++ rightPanels c s

/-- C2: the solar placer emits exactly `rowsPerSlope * panelsPerRow * 2`
panel instances — `rowsPerSlope * panelsPerRow` per slope — for every
configuration, independent of every other config value. -/
theorem c2_solar_instance_count (c : StructureCfg) (s : SolarCfg) :
    (solarInstances c s).length = s.rowsPerSlope * s.panelsPerRow * 2 ∧
    (leftPanels c s).length = s.rowsPerSlope * s.panelsPerRow ∧
    (rightPanels c s).length = s.rowsPerSlope * s.panelsPerRow := by
  have hl : (leftPanels c s).length = s.rowsPerSlope * s.panelsPerRow := by
    simp [leftPanels, Function.comp_def, List.map_const', List.sum_replicate, smul_eq_mul,
      mul_comm]
  have hr : (rightPanels c s).length = s.rowsPerSlope * s.panelsPerRow := by
    simp [rightPanels, Function.comp_def, List.map_const', List.sum_replicate, smul_eq_mul,
      mul_comm]
  refine ⟨?_, hl, hr⟩
  simp only [solarInstances, List.length_append, hl, hr]
  ring

/-- Numeric upper bound for the default pitch: `arctan 0.15 < 0.1490`. -/
lemma arctan_fifteen_ub : Real.arctan 0.15 < 0.1490 := by
  have hpi : (3:ℝ) < π := Real.pi_gt_three
  have habs : |(0.1490:ℝ)| = 0.1490 := abs_of_nonneg (by norm_num)
  have hs := Real.sin_bound (x := 0.1490) (by rw [habs]; norm_num)
  have hc := Real.cos_bound (x := 0.1490) (by rw [habs]; norm_num)
  rw [habs] at hs hc
  have hsl : (0.1490:ℝ) - 0.1490 ^ 3 / 6 - 0.1490 ^ 4 * (5 / 96) ≤ Real.sin 0.1490 := by
    have h := (abs_sub_le_iff.mp hs).2
    linarith
  have hcu : Real.cos 0.1490 ≤ (1 - 0.1490 ^ 2 / 2) + 0.1490 ^ 4 * (5 / 96) := by
    have h := (abs_sub_le_iff.mp hc).1
    linarith
  have hcpos : 0 < Real.cos 0.1490 :=
    Real.cos_pos_of_mem_Ioo (Set.mem_Ioo.mpr ⟨by linarith, by linarith⟩)
  have htan : (0.15:ℝ) < Real.tan 0.1490 := by
    rw [Real.tan_eq_sin_div_cos, lt_div_iff₀ hcpos]
    nlinarith
  calc Real.arctan 0.15 < Real.arctan (Real.tan 0.1490) := Real.arctan_strictMono htan
    _ = 0.1490 := Real.arctan_tan (by linarith) (by linarith)

/-- Numeric lower bound for the default pitch: `0.1488 < arctan 0.15`. -/
lemma arctan_fifteen_lb : (0.1488:ℝ) < Real.arctan 0.15 := by
  have hpi : (3:ℝ) < π := Real.pi_gt_three
  have habs : |(0.1488:ℝ)| = 0.1488 := abs_of_nonneg (by norm_num)
  have hs := Real.sin_bound (x := 0.1488) (by rw [habs]; norm_num)
  have hc := Real.cos_bound (x := 0.1488) (by rw [habs]; norm_num)
  rw [habs] at hs hc
  have hsu : Real.sin 0.1488 ≤ (0.1488 - 0.1488 ^ 3 / 6) + 0.1488 ^ 4 * (5 / 96) := by
    have h := (abs_sub_le_iff.mp hs).1
    linarith
  have hcl : (1:ℝ) - 0.1488 ^ 2 / 2 - 0.1488 ^ 4 * (5 / 96) ≤ Real.cos 0.1488 := by
    have h := (abs_sub_le_iff.mp hc).2
    linarith
  have hcpos : 0 < Real.cos 0.1488 :=
    Real.cos_pos_of_mem_Ioo (Set.mem_Ioo.mpr ⟨by linarith, by linarith⟩)
  have htan : Real.tan 0.1488 < 0.15 := by
    rw [Real.tan_eq_sin_div_cos, div_lt_iff₀ hcpos]
    nlinarith
  calc (0.1488:ℝ) = Real.arctan (Real.tan 0.1488) :=
        (Real.arctan_tan (by linarith) (by linarith)).symm
    _ < Real.arctan 0.15 := Real.arctan_strictMono htan

/-- Derived pitch of the default structure, as an arctan of a numeral. -/
lemma pitchRad_default : pitchRad defaultStructure = Real.arctan 0.15 := by
  unfold pitchRad rise halfSpan defaultStructure
  norm_num

/-- C1: for every valid structure config, `pitchRadians =
atan((ridgeHeight-eavesHeight)/(width/2))` and `slopeLength =
hypot(rise, halfSpan)`; the builder emits `colCount =
ceil(length/columnSpacing)+1` column ticks at `z_i = i*columnSpacing -
length/2`; for the default structure the pitch is approximately 0.1489
rad and `colCount = 17`. -/
theorem c1_frame_geometry_and_columns :
    (∀ c : StructureCfg,
        pitchRad c = Real.arctan ((c.ridgeHeight - c.eavesHeight) / (c.width / 2)) ∧
        slopeLen c = Real.sqrt ((c.ridgeHeight - c.eavesHeight) ^ 2 + (c.width / 2) ^ 2) ∧
        colCount c = ⌈c.length / c.columnSpacing⌉ + 1) ∧
    (∀ c : StructureCfg, 0 < c.width → c.eavesHeight < c.ridgeHeight →
        0 < c.columnSpacing →
        (columns c).length = 2 * (colCount c).toNat ∧
        ∀ i, i < (colCount c).toNat →
          colL c i ∈ columns c ∧ colR c i ∈ columns c ∧
          (colL c i).2.2 = i * c.columnSpacing - c.length / 2) ∧
    |pitchRad defaultStructure - 0.1489| < 1 / 1000 ∧
    colCount defaultStructure = 17 := by
  refine ⟨?_, ?_, ?_, ?_⟩
  · intro c
    refine ⟨rfl, ?_, rfl⟩
    unfold slopeLen rise halfSpan
    congr 1
    ring
  · intro c _ _ _
    constructor
    · simp [columns, Function.comp_def, List.map_const', List.sum_replicate, smul_eq_mul,
        mul_comm]
    · intro i hi
      refine ⟨?_, ?_, rfl⟩
      · exact List.mem_flatMap.mpr ⟨i, List.mem_range.mpr hi, by simp⟩
      · exact List.mem_flatMap.mpr ⟨i, List.mem_range.mpr hi, by simp⟩
  · rw [pitchRad_default]
    have h1 := arctan_fifteen_ub
    have h2 := arctan_fifteen_lb
    rw [abs_sub_lt_iff]
    constructor <;> linarith
  · norm_num [colCount, defaultStructure]

/-- Witness for C1 at the default configuration. -/
theorem c1_witness :
    (0:ℝ) < defaultStructure.width ∧
    defaultStructure.eavesHeight < defaultStructure.ridgeHeight ∧
    (0:ℝ) < defaultStructure.columnSpacing ∧
    (columns defaultStructure).length = 2 * (colCount defaultStructure).toNat := by
  have h1 : (0:ℝ) < defaultStructure.width := by norm_num [defaultStructure]
  have h2 : defaultStructure.eavesHeight < defaultStructure.ridgeHeight := by
    norm_num [defaultStructure]
  have h3 : (0:ℝ) < defaultStructure.columnSpacing := by norm_num [defaultStructure]
  exact ⟨h1, h2, h3, (c1_frame_geometry_and_columns.2.1 defaultStructure h1 h2 h3).1⟩

/-- C8: bilateral column symmetry: every tick emits a left column at
`x = -width/2` and a right column at `x = +width/2` with the same z
coordinate, and (for positive column spacing) that right column is the
only emitted right column sharing the left column's z coordinate. -/
theorem c8_column_mirror_symmetry (c : StructureCfg) (hs : 0 < c.columnSpacing) :
    ∀ i, i < (colCount c).toNat →
      (colL c i).1 = -(c.width / 2) ∧ (colR c i).1 = c.width / 2 ∧
      (colR c i).2.2 = (colL c i).2.2 ∧ colR c i ∈ columns c ∧
      ∀ j, j < (colCount c).toNat → (colR c j).2.2 = (colL c i).2.2 → j = i := by
  intro i _
  refine ⟨rfl, rfl, rfl, ?_, ?_⟩
  · exact List.mem_flatMap.mpr ⟨i, List.mem_range.mpr (by assumption), by simp⟩
  · intro j _ hz
    have hz' : (j:ℝ) * c.columnSpacing = (i:ℝ) * c.columnSpacing := by
      have : (j:ℝ) * c.columnSpacing - c.length / 2 =
          (i:ℝ) * c.columnSpacing - c.length / 2 := hz
      linarith
    have : (j:ℝ) = i := mul_right_cancel₀ (ne_of_gt hs) hz'
    exact_mod_cast this

/-- Witness for C8 at the default configuration, tick 0. -/
theorem c8_witness :
    (0:ℝ) < defaultStructure.columnSpacing ∧
    (colL defaultStructure 0).1 = -(defaultStructure.width / 2) := by
  have h : (0:ℝ) < defaultStructure.columnSpacing := by norm_num [defaultStructure]
  have h0 : 0 < (colCount defaultStructure).toNat := by
    norm_num [colCount, defaultStructure]
  exact ⟨h, (c8_column_mirror_symmetry defaultStructure h 0 h0).1⟩

/-- C6: right-slope panels, and only right-slope panels, have their
anchor translated down-slope by `Δx = cos(pitchRadians)*overhangFix`,
`Δy = -sin(pitchRadians)*overhangFix` on top of the mirrored `-xOff`
left-slope construction; the left-slope panel is the plain anchored
construction with no such correction. -/
theorem c6_right_slope_overhang_correction (c : StructureCfg) (s : SolarCfg)
    (hw : 0 < c.width) (hr : c.eavesHeight < c.ridgeHeight) (row col : ℕ) :
    rightPanelPos c s row col = rightPanelMirrorBase c s row col +
      (Real.cos (pitchRad c) * overhangFix, -(Real.sin (pitchRad c) * overhangFix), 0) ∧
    leftPanelPos c s row col =
      (-(halfSpan c) / 2 + (rotZvec (pitchRad c) (xOffset s row, 0.05, zOffset s col)).1,
       c.eavesHeight + rise c / 2 + 0.2 +
         (rotZvec (pitchRad c) (xOffset s row, 0.05, zOffset s col)).2.1,
       0 + (rotZvec (pitchRad c) (xOffset s row, 0.05, zOffset s col)).2.2) := by
  have hp : 0 < pitchRad c := by
    have h1 : 0 < rise c / halfSpan c := by
      refine div_pos ?_ ?_
      · unfold rise
        linarith
      · unfold halfSpan
        linarith
    have h2 := Real.arctan_strictMono h1
    rwa [Real.arctan_zero] at h2
  constructor
  · have h1 : Real.cos (-(pitchRad c)) = Real.cos (pitchRad c) := Real.cos_neg _
    have h2 : |(-(pitchRad c))| = pitchRad c := by rw [abs_neg, abs_of_pos hp]
    simp only [rightPanelPos, rightPanelMirrorBase, h1, h2, Prod.mk_add_mk, Prod.mk.injEq]
    refine ⟨by ring, by ring, by ring⟩
  · rfl

/-- Witness for C6 at the default configuration, panel (0,0). -/
theorem c6_witness :
    (0:ℝ) < defaultStructure.width ∧
    defaultStructure.eavesHeight < defaultStructure.ridgeHeight ∧
    rightPanelPos defaultStructure defaultSolar 0 0 =
      rightPanelMirrorBase defaultStructure defaultSolar 0 0 +
        (Real.cos (pitchRad defaultStructure) * overhangFix,
         -(Real.sin (pitchRad defaultStructure) * overhangFix), 0) := by
  have h1 : (0:ℝ) < defaultStructure.width := by norm_num [defaultStructure]
  have h2 : defaultStructure.eavesHeight < defaultStructure.ridgeHeight := by
    norm_num [defaultStructure]
  exact ⟨h1, h2,
    (c6_right_slope_overhang_correction defaultStructure defaultSolar h1 h2 0 0).1⟩

/-- Sum of an affine function of the index over `List.range n`. -/
lemma range_affine_sum (a b : ℝ) (n : ℕ) :
    ((List.range n).map (fun r : ℕ => (r:ℝ) * a + b)).sum
      = ((n:ℝ) * ((n:ℝ) - 1)) / 2 * a + (n:ℝ) * b := by
  induction n with
  | zero => simp
  | succ n ih =>
    rw [List.range_succ, List.map_append, List.sum_append, ih]
    simp only [List.map_cons, List.map_nil, List.sum_cons, List.sum_nil]
    push_cast
    ring

/-- Mean of the raw pre-rotation along-slope offsets of one slope's
panel grid.  `xOffset` does not depend on the column index, so this
equals the mean of `xOff` over all `(row, col)` pairs of the slope. -/
noncomputable def meanXOff (s : SolarCfg) : ℝ :=
  ((List.range s.rowsPerSlope).map (xOffset s)).sum / s.rowsPerSlope

/-- Mean of the raw pre-rotation along-length offsets of one slope's
panel grid.  `zOffset` does not depend on the row index, so this equals
the mean of `zOff` over all `(row, col)` pairs of the slope. -/
noncomputable def meanZOff (s : SolarCfg) : ℝ :=
  ((List.range s.panelsPerRow).map (zOffset s)).sum / s.panelsPerRow

/-- C7 counterexample: at the source's own solar configuration the mean
raw offsets are 0.05 m and 0.663 m — neither is 0, and 0.663 m is far
beyond floating-point tolerance. -/
theorem c7_counterexample :
    meanXOff defaultSolar = 0.05 ∧ meanZOff defaultSolar = 0.663 ∧
    meanXOff defaultSolar ≠ 0 ∧ meanZOff defaultSolar ≠ 0 := by
  have hx : meanXOff defaultSolar = 0.05 := by
    unfold meanXOff
    have hmap : (List.range defaultSolar.rowsPerSlope).map (xOffset defaultSolar)
        = (List.range defaultSolar.rowsPerSlope).map
            (fun r : ℕ => (r:ℝ) * 1.812 + (-1.762)) := by
      refine List.map_congr_left fun r _ => ?_
      show xOffset defaultSolar r = _
      unfold xOffset defaultSolar
      push_cast
      norm_num
      ring
    rw [hmap, range_affine_sum]
    norm_num [defaultSolar]
  have hz : meanZOff defaultSolar = 0.663 := by
    unfold meanZOff
    have hmap : (List.range defaultSolar.panelsPerRow).map (zOffset defaultSolar)
        = (List.range defaultSolar.panelsPerRow).map
            (fun col : ℕ => (col:ℝ) * 1.164 + (-47.061)) := by
      refine List.map_congr_left fun col _ => ?_
      show zOffset defaultSolar col = _
      unfold zOffset defaultSolar
      push_cast
      norm_num
      ring
    rw [hmap, range_affine_sum]
    norm_num [defaultSolar]
  exact ⟨hx, hz, by rw [hx]; norm_num, by rw [hz]; norm_num⟩

/-- C7 amended: the raw per-slope offset grids are centered only up to
the inter-panel gaps and a missing half panel width: the mean
along-slope offset is `(rowsPerSlope-1)*gapAlongSlope/2` and the mean
along-length offset is `((panelsPerRow-1)*gapAlongLength -
panelWidth)/2`; neither is 0 in general. -/
theorem c7_amended_mean_offsets (s : SolarCfg)
    (hr : 0 < s.rowsPerSlope) (hc : 0 < s.panelsPerRow) :
    meanXOff s = ((s.rowsPerSlope : ℝ) - 1) * s.gapY / 2 ∧
    meanZOff s = (((s.panelsPerRow : ℝ) - 1) * s.gapX - s.width) / 2 := by
  have hrne : ((s.rowsPerSlope : ℕ) : ℝ) ≠ 0 := by
    exact_mod_cast Nat.pos_iff_ne_zero.mp hr
  have hcne : ((s.panelsPerRow : ℕ) : ℝ) ≠ 0 := by
    exact_mod_cast Nat.pos_iff_ne_zero.mp hc
  constructor
  · unfold meanXOff
    have hmap : (List.range s.rowsPerSlope).map (xOffset s)
        = (List.range s.rowsPerSlope).map
            (fun r : ℕ => (r:ℝ) * (s.length + s.gapY) +
              (-((s.rowsPerSlope:ℝ) * s.length) / 2 + s.length / 2)) := by
      refine List.map_congr_left fun r _ => ?_
      unfold xOffset
      ring
    rw [hmap, range_affine_sum]
    field_simp
    ring
  · unfold meanZOff
    have hmap : (List.range s.panelsPerRow).map (zOffset s)
        = (List.range s.panelsPerRow).map
            (fun col : ℕ => (col:ℝ) * (s.width + s.gapX) +
              (-((s.panelsPerRow:ℝ) * s.width) / 2)) := by
      refine List.map_congr_left fun col _ => ?_
      unfold zOffset
      ring
    rw [hmap, range_affine_sum]
    field_simp
    ring

/-- Witness for C7's amended theorem at the default solar config. -/
theorem c7_amended_witness :
    0 < defaultSolar.rowsPerSlope ∧ 0 < defaultSolar.panelsPerRow ∧
    meanXOff defaultSolar = ((defaultSolar.rowsPerSlope : ℝ) - 1) * defaultSolar.gapY / 2 := by
  have h1 : 0 < defaultSolar.rowsPerSlope := by norm_num [defaultSolar]
  have h2 : 0 < defaultSolar.panelsPerRow := by norm_num [defaultSolar]
  exact ⟨h1, h2, (c7_amended_mean_offsets defaultSolar h1 h2).1⟩

/-- Car parking configuration: the dimensional fields of
`CONFIG.parking.car` (lines 17-28). -/
structure CarCfg where
  width : ℝ
  length : ℝ
  angle : ℝ

/-- Coach parking configuration: the dimensional fields of
`CONFIG.parking.coach` (lines 29-39). -/
structure CoachCfg where
  width : ℝ
  length : ℝ
  angle : ℝ

/-- The concrete `CONFIG.parking.car` value: width 2.4, length 4.8, angle 45°. -/
noncomputable def defaultCar : CarCfg := ⟨2.4, 4.8, 45⟩

/-- The concrete `CONFIG.parking.coach` value: width 3.5, length 12, angle 30°. -/
noncomputable def defaultCoach : CoachCfg := ⟨3.5, 12, 30⟩

/-- Car bay angle in radians, `angle * (Math.PI / 180)` (line 490). -/
noncomputable def angleRad (car : CarCfg) : ℝ := car.angle * (π / 180)

/-- Divider spacing along the aisle, `bayW / Math.sin(angleRad)` (line 502). -/
noncomputable def zSpacing (car : CarCfg) : ℝ := car.width / Real.sin (angleRad car)

/-- Car bay count, `Math.floor(length / zSpacing) - 1` (line 504). -/
noncomputable def numBays (st : StructureCfg) (car : CarCfg) : ℤ :=
  ⌊st.length / zSpacing car⌋ - 1

/-- Car bay start coordinate, `-(length / 2) + 2` (line 505). -/
noncomputable def startZ (st : StructureCfg) : ℝ := -(st.length / 2) + 2

/-- Aisle center of port 1 (line 538). -/
noncomputable def port1Center : ℝ := -6

/-- Left-row pivot x, `port1Center - 1.5` (line 568). -/
noncomputable def aisleX_L : ℝ := port1Center - 1.5

/-- Right-row pivot x, `port1Center + 1.5` (line 596). -/
noncomputable def aisleX_R : ℝ := port1Center + 1.5

/-- Left-row divider rotation, `Math.PI / 4` (line 577). -/
noncomputable def rotL : ℝ := π / 4

/-- Right-row divider rotation, `-Math.PI / 4` (line 597). -/
noncomputable def rotR : ℝ := -(π / 4)

/-- Aisle coordinate of car bay `i`, `startZ + i * zSpacing` (line 557). -/
noncomputable def carBayZ (st : StructureCfg) (car : CarCfg) (i : ℕ) : ℝ :=
  startZ st + i * zSpacing car

/-- One emitted parking instance: a painted divider line
(`createBoxLine`, position plus `rotation.y`) or a vehicle model
(position, `rotation.y`, and the sampled color index). -/
inductive Inst where
  | line (x y z rotY : ℝ)
  | vehicle (colorIdx : ℤ) (x y z rotY : ℝ)

/-- Left-row divider of car bay `i` (lines 585-591). -/
noncomputable def carLineL (st : StructureCfg) (car : CarCfg) (i : ℕ) : Inst :=
  Inst.line (aisleX_L - Real.sin rotL * car.length / 2) 0.02
    (carBayZ st car i + Real.cos rotL * car.length / 2) rotL

/-- Right-row divider of car bay `i` (lines 599-605). -/
noncomputable def carLineR (st : StructureCfg) (car : CarCfg) (i : ℕ) : Inst :=
  Inst.line (aisleX_R + Real.sin |rotR| * car.length / 2) 0.02
    (carBayZ st car i + Real.cos |rotR| * car.length / 2) rotR

/-- Vehicle anchor offset, the literal `carDist = 2.4` of line 639
(the source's "Midpoint of 4.8m length"). -/
noncomputable def carDist : ℝ := 2.4

/-- Vehicle z pivot of car bay `i`, `z + zSpacing / 2` (line 630). -/
noncomputable def carZ (st : StructureCfg) (car : CarCfg) (i : ℕ) : ℝ :=
  carBayZ st car i + zSpacing car / 2

/-- Left-row vehicle position of car bay `i` (lines 640-643). -/
noncomputable def carPosL (st : StructureCfg) (car : CarCfg) (i : ℕ) : ℝ × ℝ × ℝ :=
  (aisleX_L - Real.sin rotL * carDist, 0.02, carZ st car i + Real.cos rotL * carDist)

/-- Right-row vehicle position of car bay `i` (lines 655-661). -/
noncomputable def carPosR (st : StructureCfg) (car : CarCfg) (i : ℕ) : ℝ × ℝ × ℝ :=
  (aisleX_R + Real.sin |rotR| * carDist, 0.02, carZ st car i + Real.cos |rotR| * carDist)

/-- One iteration of the car bay loop (lines 556-666).  `g` is the
stream of successive `Math.random()` results and `k` the index of the
next unconsumed draw; the returned index accounts for the draws
consumed (one occupancy draw per row, plus one color draw when the
occupancy draw succeeds).  Emission order matches `group.add` order:
left line, right line, optional left vehicle, optional right vehicle. -/
noncomputable def carBayInsts (st : StructureCfg) (car : CarCfg) (g : ℕ → ℝ) (k i : ℕ) :
    List Inst × ℕ :=
  let resL : List Inst × ℕ :=
    if 0.3 < g k then
      ([Inst.vehicle ⌊g (k + 1) * 1⌋ (carPosL st car i).1 (carPosL st car i).2.1
          (carPosL st car i).2.2 (rotL + π)], k + 2)
    else ([], k + 1)
  let resR : List Inst × ℕ :=
    if 0.3 < g resL.2 then
      ([Inst.vehicle ⌊g (resL.2 + 1) * 1⌋ (carPosR st car i).1 (carPosR st car i).2.1
          (carPosR st car i).2.2 (rotR + π)], resL.2 + 2)
    else ([], resL.2 + 1)
  ([carLineL st car i, carLineR st car i] ++ resL.1 ++ resR.1, resR.2)

/-- Coach bay angle in radians (line 672). -/
noncomputable def coachAngle (coach : CoachCfg) : ℝ := coach.angle * (π / 180)

/-- Coach divider spacing, `coachW / Math.sin(coachAngle)` (line 675). -/
noncomputable def coachZSpacing (coach : CoachCfg) : ℝ :=
  coach.width / Real.sin (coachAngle coach)

/-- Coach bay count, `Math.floor((length - 10) / coachZSpacing)` (line 678). -/
noncomputable def numCoachBays (st : StructureCfg) (coach : CoachCfg) : ℤ :=
  ⌊(st.length - 10) / coachZSpacing coach⌋

/-- Coach bay start coordinate, `-(length / 2) + 10` (line 679). -/
noncomputable def coachStartZ (st : StructureCfg) : ℝ := -(st.length / 2) + 10

/-- Aisle center of port 2 (line 681). -/
noncomputable def port2Center : ℝ := 6

/-- Coach pivot x, `port2Center - 3.0` (line 695). -/
noncomputable def coachAisleX : ℝ := port2Center - 3

/-- Coach divider rotation, `-coachAngle` (line 698). -/
noncomputable def coachRot (coach : CoachCfg) : ℝ := -(coachAngle coach)

/-- Aisle coordinate of coach bay `i` (line 692). -/
noncomputable def coachBayZ (st : StructureCfg) (coach : CoachCfg) (i : ℕ) : ℝ :=
  coachStartZ st + i * coachZSpacing coach

/-- Coach divider of bay `i` (lines 701-706). -/
noncomputable def coachLine (st : StructureCfg) (coach : CoachCfg) (i : ℕ) : Inst :=
  Inst.line (coachAisleX + Real.sin |coachRot coach| * coach.length / 2) 0.02
    (coachBayZ st coach i + Real.cos |coachRot coach| * coach.length / 2) (coachRot coach)

/-- Coach vehicle position of bay `i` (lines 717-720). -/
noncomputable def coachPos (st : StructureCfg) (coach : CoachCfg) (i : ℕ) : ℝ × ℝ × ℝ :=
  (coachAisleX + Real.sin |coachRot coach| * coach.length / 2 +
     Real.cos |coachRot coach| * coach.width / 2, 0.02,
   coachBayZ st coach i + Real.cos |coachRot coach| * coach.length / 2 -
     Real.sin |coachRot coach| * coach.width / 2)

/-- One iteration of the coach bay loop (lines 691-725): the divider
line, then the optional coach vehicle. -/
noncomputable def coachBayInsts (st : StructureCfg) (coach : CoachCfg) (g : ℕ → ℝ)
    (k i : ℕ) : List Inst × ℕ :=
  let res : List Inst × ℕ :=
    if 0.4 < g k then
      ([Inst.vehicle ⌊g (k + 1) * 1⌋ (coachPos st coach i).1 (coachPos st coach i).2.1
          (coachPos st coach i).2.2 (coachRot coach + π)], k + 2)
    else ([], k + 1)
  (coachLine st coach i :: res.1, res.2)

/-- The car bay loop: `n` remaining bays starting at bay index `i`,
next unconsumed draw `k`. -/
noncomputable def carBaysFrom (st : StructureCfg) (car : CarCfg) (g : ℕ → ℝ) :
    ℕ → ℕ → ℕ → List Inst × ℕ
  | 0, _, k => ([], k)
  | Nat.succ n, i, k =>
      let step := carBayInsts st car g k i
      let rest := carBaysFrom st car g n (i + 1) step.2
      (step.1 ++ rest.1, rest.2)

/-- The coach bay loop. -/
noncomputable def coachBaysFrom (st : StructureCfg) (coach : CoachCfg) (g : ℕ → ℝ) :
    ℕ → ℕ → ℕ → List Inst × ℕ
  | 0, _, k => ([], k)
  | Nat.succ n, i, k =>
      let step := coachBayInsts st coach g k i
      let rest := coachBaysFrom st coach g n (i + 1) step.2
      (step.1 ++ rest.1, rest.2)

/-- The full parking generator (`generateParking`, lines 478-728): the
car bay loop over `numBays` bays followed by the coach bay loop over
`numCoachBays` bays, the coach loop continuing to consume the same
randomness stream.  A negative bay count runs its loop zero times. -/
noncomputable def generateParking (st : StructureCfg) (car : CarCfg) (coach : CoachCfg)
    (g : ℕ → ℝ) : List Inst :=
  let carPart := carBaysFrom st car g (numBays st car).toNat 0 0
  let coachPart := coachBaysFrom st coach g (numCoachBays st coach).toNat 0 carPart.2
  carPart.1 ++ coachPart.1

/-- Position x of an emitted parking instance. -/
def Inst.px : Inst → ℝ
  | .line x _ _ _ => x
  | .vehicle _ x _ _ _ => x

/-- Position y of an emitted parking instance. -/
def Inst.py : Inst → ℝ
  | .line _ y _ _ => y
  | .vehicle _ _ y _ _ => y

/-- Position z of an emitted parking instance. -/
def Inst.pz : Inst → ℝ
  | .line _ _ z _ => z
  | .vehicle _ _ _ z _ => z

/-- Rotation about the vertical axis of an emitted parking instance. -/
def Inst.rotY : Inst → ℝ
  | .line _ _ _ r => r
  | .vehicle _ _ _ _ r => r

/-- C3: per vehicle class with `0° < angle < 90°` the divider spacing
along the aisle is `bayPitch = vehicleWidth / sin(angleRad)` and the
bay count is `floor(availableLength / bayPitch) - marginBays` with
class-specific constants (car: `availableLength` = structure length,
`marginBays = 1`; coach: `availableLength` = structure length - 10,
`marginBays = 0`); successive bay dividers are `bayPitch` apart; for
the car class with width 2.4 and angle 45° the pitch is approximately
3.394. -/
theorem c3_bay_pitch_and_count :
    (∀ car : CarCfg, zSpacing car = car.width / Real.sin (car.angle * (π / 180))) ∧
    (∀ (st : StructureCfg) (car : CarCfg),
        numBays st car = ⌊st.length / zSpacing car⌋ - 1 ∧
        ∀ i : ℕ, carBayZ st car (i + 1) - carBayZ st car i = zSpacing car) ∧
    (∀ (st : StructureCfg) (coach : CoachCfg),
        coachZSpacing coach = coach.width / Real.sin (coach.angle * (π / 180)) ∧
        numCoachBays st coach = ⌊(st.length - 10) / coachZSpacing coach⌋ ∧
        ∀ i : ℕ, coachBayZ st coach (i + 1) - coachBayZ st coach i = coachZSpacing coach) ∧
    (∀ car : CarCfg, car.width = 2.4 → car.angle = 45 →
        |zSpacing car - 3.394| < 1 / 1000) := by
  refine ⟨fun car => rfl, fun st car => ⟨rfl, fun i => ?_⟩,
    fun st coach => ⟨rfl, rfl, fun i => ?_⟩, fun car hw ha => ?_⟩
  · unfold carBayZ
    push_cast
    ring
  · unfold coachBayZ
    push_cast
    ring
  · have h45 : car.angle * (π / 180) = π / 4 := by rw [ha]; ring
    rw [zSpacing, angleRad, h45, Real.sin_pi_div_four, hw]
    have h2 := Real.sq_sqrt (show (0:ℝ) ≤ 2 by norm_num)
    have hpos := Real.sqrt_nonneg 2
    have hlb : 1.414 < Real.sqrt 2 := by nlinarith
    have hub : Real.sqrt 2 < 1.41422 := by nlinarith
    have hne : Real.sqrt 2 ≠ 0 := by nlinarith
    have key : (2.4:ℝ) / (Real.sqrt 2 / 2) = 2.4 * Real.sqrt 2 := by
      field_simp
      nlinarith
    rw [key]
    rw [abs_lt]
    constructor <;> nlinarith

/-- Witness for C3's approximation at the source's car class. -/
theorem c3_witness :
    defaultCar.width = 2.4 ∧ defaultCar.angle = 45 ∧
    |zSpacing defaultCar - 3.394| < 1 / 1000 := by
  have h1 : defaultCar.width = 2.4 := rfl
  have h2 : defaultCar.angle = 45 := rfl
  exact ⟨h1, h2, c3_bay_pitch_and_count.2.2.2 defaultCar h1 h2⟩

/-- Half of the z extent of a painted divider line: the line is a box
of plan size `lineWidth` by `len` rotated by `rotY` about the vertical
axis, giving z half-extent `|cos rotY|*len/2 + |sin rotY|*lineWidth/2`
with `CONFIG.parking.car.lineWidth = 0.1` (line 23). -/
noncomputable def lineZHalfExtent (r len : ℝ) : ℝ :=
  |Real.cos r| * len / 2 + |Real.sin r| * 0.1 / 2

/-- C10: for every car bay the left-row and right-row dividers are
mirror images about the aisle centerline: pivots at `port1Center ∓ 1.5`,
rotations exactly `+π/4` and `-π/4`, center x coordinates equidistant
from `port1Center`, equal center z, and the same z extent. -/
theorem c10_car_rows_mirror (st : StructureCfg) (car : CarCfg) (i : ℕ) :
    aisleX_L = port1Center - 1.5 ∧ aisleX_R = port1Center + 1.5 ∧
    (carLineL st car i).rotY = π / 4 ∧ (carLineR st car i).rotY = -(π / 4) ∧
    (carLineR st car i).rotY = -((carLineL st car i).rotY) ∧
    port1Center - (carLineL st car i).px = (carLineR st car i).px - port1Center ∧
    (carLineL st car i).pz = (carLineR st car i).pz ∧
    lineZHalfExtent (carLineL st car i).rotY car.length =
      lineZHalfExtent (carLineR st car i).rotY car.length := by
  have habs : |rotR| = π / 4 := by
    unfold rotR
    rw [abs_neg, abs_of_nonneg]
    positivity
  refine ⟨rfl, rfl, rfl, rfl, rfl, ?_, ?_, ?_⟩
  · show port1Center - (aisleX_L - Real.sin rotL * car.length / 2) =
      aisleX_R + Real.sin |rotR| * car.length / 2 - port1Center
    rw [habs]
    simp only [aisleX_L, aisleX_R, port1Center, rotL]
    ring
  · show carBayZ st car i + Real.cos rotL * car.length / 2 =
      carBayZ st car i + Real.cos |rotR| * car.length / 2
    rw [habs]
    rfl
  · show lineZHalfExtent rotL car.length = lineZHalfExtent rotR car.length
    unfold lineZHalfExtent rotL rotR
    rw [Real.cos_neg, Real.sin_neg, abs_neg]

/-- One car bay reads the randomness stream only at indices in
`[k, k+4)`: streams that agree below `K ≥ k+4` give the same step. -/
lemma carBayInsts_agree (st : StructureCfg) (car : CarCfg) (g₁ g₂ : ℕ → ℝ) (K k i : ℕ)
    (hg : ∀ j, j < K → g₁ j = g₂ j) (hk : k + 4 ≤ K) :
    carBayInsts st car g₁ k i = carBayInsts st car g₂ k i := by
  have h0 : g₁ k = g₂ k := hg k (by omega)
  have h1 : g₁ (k + 1) = g₂ (k + 1) := hg (k + 1) (by omega)
  have h2 : g₁ (k + 2) = g₂ (k + 2) := hg (k + 2) (by omega)
  have h11 : g₁ (k + 1 + 1) = g₂ (k + 1 + 1) := hg (k + 1 + 1) (by omega)
  have h21 : g₁ (k + 2 + 1) = g₂ (k + 2 + 1) := hg (k + 2 + 1) (by omega)
  by_cases hA : 0.3 < g₁ k
  · have hA' : 0.3 < g₂ k := by rwa [h0] at hA
    by_cases hB : 0.3 < g₁ (k + 2)
    · have hB' : 0.3 < g₂ (k + 2) := by rwa [h2] at hB
      simp only [carBayInsts, if_pos hA, if_pos hA', if_pos hB, if_pos hB', h1, h21]
    · have hB' : ¬ 0.3 < g₂ (k + 2) := by rwa [h2] at hB
      simp only [carBayInsts, if_pos hA, if_pos hA', if_neg hB, if_neg hB', h1]
  · have hA' : ¬ 0.3 < g₂ k := by rwa [h0] at hA
    by_cases hB : 0.3 < g₁ (k + 1)
    · have hB' : 0.3 < g₂ (k + 1) := by rwa [h1] at hB
      simp only [carBayInsts, if_neg hA, if_neg hA', if_pos hB, if_pos hB', h11]
    · have hB' : ¬ 0.3 < g₂ (k + 1) := by rwa [h1] at hB
      simp only [carBayInsts, if_neg hA, if_neg hA', if_neg hB, if_neg hB']

/-- One car bay advances the draw index by at most 4. -/
lemma carBayInsts_k_le (st : StructureCfg) (car : CarCfg) (g : ℕ → ℝ) (k i : ℕ) :
    (carBayInsts st car g k i).2 ≤ k + 4 := by
  by_cases hA : 0.3 < g k
  · by_cases hB : 0.3 < g (k + 2)
    · simp only [carBayInsts, if_pos hA, if_pos hB]
      omega
    · simp only [carBayInsts, if_pos hA, if_neg hB]
      omega
  · by_cases hB : 0.3 < g (k + 1)
    · simp only [carBayInsts, if_neg hA, if_pos hB]
      omega
    · simp only [carBayInsts, if_neg hA, if_neg hB]
      omega

/-- One coach bay reads the randomness stream only at indices in
`[k, k+2)`. -/
lemma coachBayInsts_agree (st : StructureCfg) (coach : CoachCfg) (g₁ g₂ : ℕ → ℝ)
    (K k i : ℕ) (hg : ∀ j, j < K → g₁ j = g₂ j) (hk : k + 2 ≤ K) :
    coachBayInsts st coach g₁ k i = coachBayInsts st coach g₂ k i := by
  have h0 : g₁ k = g₂ k := hg k (by omega)
  have h1 : g₁ (k + 1) = g₂ (k + 1) := hg (k + 1) (by omega)
  by_cases hA : 0.4 < g₁ k
  · have hA' : 0.4 < g₂ k := by rwa [h0] at hA
    simp only [coachBayInsts, if_pos hA, if_pos hA', h1]
  · have hA' : ¬ 0.4 < g₂ k := by rwa [h0] at hA
    simp only [coachBayInsts, if_neg hA, if_neg hA']

/-- One coach bay advances the draw index by at most 2. -/
lemma coachBayInsts_k_le (st : StructureCfg) (coach : CoachCfg) (g : ℕ → ℝ) (k i : ℕ) :
    (coachBayInsts st coach g k i).2 ≤ k + 2 := by
  by_cases hA : 0.4 < g k
  · simp only [coachBayInsts, if_pos hA]
    omega
  · simp only [coachBayInsts, if_neg hA]
    omega

/-- The car bay loop over `n` bays reads the stream only below `k+4n`
and leaves the draw index at most `k+4n`. -/
lemma carBaysFrom_agree (st : StructureCfg) (car : CarCfg) (g₁ g₂ : ℕ → ℝ) (K : ℕ)
    (hg : ∀ j, j < K → g₁ j = g₂ j) :
    ∀ n i k, k + 4 * n ≤ K →
      carBaysFrom st car g₁ n i k = carBaysFrom st car g₂ n i k ∧
      (carBaysFrom st car g₁ n i k).2 ≤ k + 4 * n := by
  intro n
  induction n with
  | zero =>
    intro i k _
    exact ⟨rfl, Nat.le_of_eq rfl⟩
  | succ n ih =>
    intro i k h
    have hstep := carBayInsts_agree st car g₁ g₂ K k i hg (by omega)
    have hle := carBayInsts_k_le st car g₁ k i
    have hrest := ih (i + 1) (carBayInsts st car g₁ k i).2 (by omega)
    constructor
    · simp only [carBaysFrom]
      rw [← hstep, hrest.1]
    · simp only [carBaysFrom]
      have := hrest.2
      omega

/-- The coach bay loop over `n` bays reads the stream only below
`k+2n` and leaves the draw index at most `k+2n`. -/
lemma coachBaysFrom_agree (st : StructureCfg) (coach : CoachCfg) (g₁ g₂ : ℕ → ℝ) (K : ℕ)
    (hg : ∀ j, j < K → g₁ j = g₂ j) :
    ∀ n i k, k + 2 * n ≤ K →
      coachBaysFrom st coach g₁ n i k = coachBaysFrom st coach g₂ n i k ∧
      (coachBaysFrom st coach g₁ n i k).2 ≤ k + 2 * n := by
  intro n
  induction n with
  | zero =>
    intro i k _
    exact ⟨rfl, Nat.le_of_eq rfl⟩
  | succ n ih =>
    intro i k h
    have hstep := coachBayInsts_agree st coach g₁ g₂ K k i hg (by omega)
    have hle := coachBayInsts_k_le st coach g₁ k i
    have hrest := ih (i + 1) (coachBayInsts st coach g₁ k i).2 (by omega)
    constructor
    · simp only [coachBaysFrom]
      rw [← hstep, hrest.1]
    · simp only [coachBaysFrom]
      have := hrest.2
      omega

/-- C5: the parking generator is deterministic in its randomness
source: its output is a pure function of the configuration and the
sampled values, and it reads at most `4*numBays + 2*numCoachBays`
draws, so two invocations whose randomness streams agree on those
draws (in particular two invocations with an identical deterministic
stub) produce identical output. -/
theorem c5_parking_determinism (st : StructureCfg) (car : CarCfg) (coach : CoachCfg)
    (g₁ g₂ : ℕ → ℝ)
    (hg : ∀ j, j < 4 * (numBays st car).toNat + 2 * (numCoachBays st coach).toNat →
      g₁ j = g₂ j) :
    generateParking st car coach g₁ = generateParking st car coach g₂ := by
  have hcar := carBaysFrom_agree st car g₁ g₂
    (4 * (numBays st car).toNat + 2 * (numCoachBays st coach).toNat) hg
    (numBays st car).toNat 0 0 (by omega)
  have hcoach := coachBaysFrom_agree st coach g₁ g₂
    (4 * (numBays st car).toNat + 2 * (numCoachBays st coach).toNat) hg
    (numCoachBays st coach).toNat 0
    (carBaysFrom st car g₁ (numBays st car).toNat 0 0).2
    (by have := hcar.2; omega)
  simp only [generateParking]
  rw [← hcar.1, ← hcoach.1]

/-- Witness for C5 with the default configuration and the constant-zero
stub supplied twice; the stream-agreement hypothesis is discharged by
reflexivity. -/
theorem c5_witness :
    generateParking defaultStructure defaultCar defaultCoach (fun _ => 0) =
      generateParking defaultStructure defaultCar defaultCoach (fun _ => 0) :=
  c5_parking_determinism defaultStructure defaultCar defaultCoach
    (fun _ => 0) (fun _ => 0) (fun _ _ => rfl)

/-- A car class with the degenerate angle 90°, which the specification
says must be rejected with a `ConfigError`. -/
noncomputable def car90 : CarCfg := ⟨2.4, 4.8, 90⟩

/-- A structure config with `ridgeHeight = eavesHeight`, which the
specification says must be rejected with a `ConfigError`. -/
noncomputable def stFlat : StructureCfg := ⟨96, 12, 6, 5, 5⟩

/-- With the constant-zero stream every occupancy draw fails, so each
car bay emits exactly its two divider lines and consumes two draws. -/
lemma carBaysFrom_zero (st : StructureCfg) (car : CarCfg) : ∀ n i k,
    (carBaysFrom st car (fun _ => (0:ℝ)) n i k).1.length = 2 * n ∧
    (carBaysFrom st car (fun _ => (0:ℝ)) n i k).2 = k + 2 * n := by
  intro n
  induction n with
  | zero => intro i k; exact ⟨rfl, rfl⟩
  | succ n ih =>
    intro i k
    have hA : ¬ (0.3:ℝ) < 0 := by norm_num
    have h1 := (ih (i + 1) (k + 1 + 1)).1
    have h2 := (ih (i + 1) (k + 1 + 1)).2
    refine ⟨?_, ?_⟩
    · simp only [carBaysFrom, carBayInsts, if_neg hA, List.append_nil, List.length_append,
        List.length_cons, List.length_nil, h1]
      omega
    · simp only [carBaysFrom, carBayInsts, if_neg hA, h2]
      omega

/-- With the constant-zero stream every coach occupancy draw fails, so
each coach bay emits exactly its divider line and consumes one draw. -/
lemma coachBaysFrom_zero (st : StructureCfg) (coach : CoachCfg) : ∀ n i k,
    (coachBaysFrom st coach (fun _ => (0:ℝ)) n i k).1.length = n ∧
    (coachBaysFrom st coach (fun _ => (0:ℝ)) n i k).2 = k + n := by
  intro n
  induction n with
  | zero => intro i k; exact ⟨rfl, rfl⟩
  | succ n ih =>
    intro i k
    have hA : ¬ (0.4:ℝ) < 0 := by norm_num
    have h1 := (ih (i + 1) (k + 1)).1
    have h2 := (ih (i + 1) (k + 1)).2
    refine ⟨?_, ?_⟩
    · simp only [coachBaysFrom, coachBayInsts, if_neg hA, List.append_nil, List.length_append,
        List.length_cons, List.length_nil, h1]
      omega
    · simp only [coachBaysFrom, coachBayInsts, if_neg hA, h2]
      omega

/-- At angle 90° the car bay spacing is `2.4/sin(π/2) = 2.4` and the
code computes 39 bays without signalling anything. -/
lemma numBays_car90 : numBays defaultStructure car90 = 39 := by
  show (⌊(96:ℝ) / ((2.4:ℝ) / Real.sin ((90:ℝ) * (π / 180)))⌋ - 1 : ℤ) = 39
  have h : (90:ℝ) * (π / 180) = π / 2 := by ring
  rw [h, Real.sin_pi_div_two]
  norm_num

/-- The default coach class yields 12 bays. -/
lemma numCoachBays_default : numCoachBays defaultStructure defaultCoach = 12 := by
  show (⌊((96:ℝ) - 10) / ((3.5:ℝ) / Real.sin ((30:ℝ) * (π / 180)))⌋ : ℤ) = 12
  have h : (30:ℝ) * (π / 180) = π / 6 := by ring
  rw [h, Real.sin_pi_div_six]
  norm_num

/-- C4 counterexample: no `ConfigError` exists anywhere in the code.
With the car angle at the degenerate value 90° the parking generator
runs to completion and emits 90 placed instances, and with `ridgeHeight
= eavesHeight` the structure builder still emits its 34 columns — the
generators do not fail fast and do produce output. -/
theorem c4_counterexample :
    (generateParking defaultStructure car90 defaultCoach (fun _ => 0)).length = 90 ∧
    (columns stFlat).length = 34 := by
  constructor
  · have hN : (numBays defaultStructure car90).toNat = 39 := by
      rw [numBays_car90]
      rfl
    have hM : (numCoachBays defaultStructure defaultCoach).toNat = 12 := by
      rw [numCoachBays_default]
      rfl
    simp only [generateParking, List.length_append]
    rw [(carBaysFrom_zero defaultStructure car90 _ _ _).1,
      (coachBaysFrom_zero defaultStructure defaultCoach _ _ _).1, hN, hM]
  · have h17 : (colCount stFlat).toNat = 17 := by
      have : colCount stFlat = 17 := by norm_num [colCount, stFlat]
      rw [this]
      rfl
    simp [columns, Function.comp_def, List.map_const', List.sum_replicate, smul_eq_mul,
      mul_comm, h17]

/-- C4 amended: the generators perform no configuration validation at
all: a degenerate angle of 90° still yields `numBays = 39` and a full
complement of emitted instances, and `ridgeHeight = eavesHeight` still
yields the 17 column pairs, with pitch 0 and no error of any kind. -/
theorem c4_amended_no_validation :
    car90.angle = 90 ∧ stFlat.ridgeHeight = stFlat.eavesHeight ∧
    numBays defaultStructure car90 = 39 ∧
    (generateParking defaultStructure car90 defaultCoach (fun _ => 0)).length = 90 ∧
    pitchRad stFlat = 0 ∧ (columns stFlat).length = 34 := by
  refine ⟨rfl, rfl, numBays_car90, ?_, ?_, ?_⟩
  · have hN : (numBays defaultStructure car90).toNat = 39 := by
      rw [numBays_car90]
      rfl
    have hM : (numCoachBays defaultStructure defaultCoach).toNat = 12 := by
      rw [numCoachBays_default]
      rfl
    simp only [generateParking, List.length_append]
    rw [(carBaysFrom_zero defaultStructure car90 _ _ _).1,
      (coachBaysFrom_zero defaultStructure defaultCoach _ _ _).1, hN, hM]
  · have h0 : rise stFlat / halfSpan stFlat = 0 := by norm_num [rise, halfSpan, stFlat]
    unfold pitchRad
    rw [h0, Real.arctan_zero]
  · have h17 : (colCount stFlat).toNat = 17 := by
      have : colCount stFlat = 17 := by norm_num [colCount, stFlat]
      rw [this]
      rfl
    simp [columns, Function.comp_def, List.map_const', List.sum_replicate, smul_eq_mul,
      mul_comm, h17]

/-- Modelled from the claim text of C9: the vehicle anchor the claim
describes for the left car row — the bay divider pivot `(aisleX_L,
z_i)` offset by half the vehicle's own length along the divider's
rotated axis, with no further shift. -/
noncomputable def claimedCarPosL (st : StructureCfg) (car : CarCfg) (i : ℕ) : ℝ × ℝ × ℝ :=
  (aisleX_L - Real.sin rotL * (car.length / 2), 0.02,
   carBayZ st car i + Real.cos rotL * (car.length / 2))

/-- Car bay spacing of the default car class is positive. -/
lemma zSpacing_defaultCar_pos : 0 < zSpacing defaultCar := by
  have h45 : angleRad defaultCar = π / 4 := by
    show (45:ℝ) * (π / 180) = π / 4
    ring
  have hsin : 0 < Real.sin (angleRad defaultCar) := by
    rw [h45, Real.sin_pi_div_four]
    have h2 := Real.sq_sqrt (show (0:ℝ) ≤ 2 by norm_num)
    have hpos := Real.sqrt_nonneg 2
    nlinarith
  unfold zSpacing
  have hw : (0:ℝ) < defaultCar.width := by norm_num [defaultCar]
  exact div_pos hw hsin

/-- C9 counterexample: the default-config left-row car of bay 0 is not
anchored at the claimed position — the code shifts the vehicle pivot a
further `zSpacing/2` along the aisle before applying the half-length
offset, so the emitted anchor differs from the claimed one by half a
bay pitch in z. -/
theorem c9_counterexample :
    carPosL defaultStructure defaultCar 0 ≠ claimedCarPosL defaultStructure defaultCar 0 := by
  intro h
  have hz := congrArg (fun p : ℝ × ℝ × ℝ => p.2.2) h
  simp only [carPosL, claimedCarPosL, carZ, carDist] at hz
  have hlen : defaultCar.length / 2 = (2.4:ℝ) := by norm_num [defaultCar]
  rw [hlen] at hz
  have hzs : zSpacing defaultCar = 0 := by linarith
  have hpos := zSpacing_defaultCar_pos
  linarith

/-- C9 amended: whenever a bay's occupancy draw succeeds the emitted
vehicle has rotation equal to the divider's rotation plus 180°, and is
anchored as follows: a car's anchor is the divider pivot shifted by
half a bay pitch (`zSpacing/2`) along the aisle and then offset by the
fixed half-vehicle-length `carDist = 2.4` along the divider's rotated
axis; a coach's anchor is the divider pivot offset by half the
divider's length along the divider axis plus half the coach's width
perpendicular to it. -/
theorem c9_amended_vehicle_anchor (st : StructureCfg) (car : CarCfg) (coach : CoachCfg)
    (g : ℕ → ℝ) (k i : ℕ) :
    (0.3 < g k →
      Inst.vehicle ⌊g (k + 1) * 1⌋ (carPosL st car i).1 (carPosL st car i).2.1
        (carPosL st car i).2.2 (rotL + π) ∈ (carBayInsts st car g k i).1) ∧
    carPosL st car i = (aisleX_L, 0.02, carBayZ st car i + zSpacing car / 2) +
      (carDist * (-(Real.sin rotL)), 0, carDist * Real.cos rotL) ∧
    carPosR st car i = (aisleX_R, 0.02, carBayZ st car i + zSpacing car / 2) +
      (carDist * Real.sin |rotR|, 0, carDist * Real.cos |rotR|) ∧
    (0.4 < g k →
      Inst.vehicle ⌊g (k + 1) * 1⌋ (coachPos st coach i).1 (coachPos st coach i).2.1
        (coachPos st coach i).2.2 (coachRot coach + π) ∈ (coachBayInsts st coach g k i).1) ∧
    coachPos st coach i = (coachAisleX, 0.02, coachBayZ st coach i) +
      (coach.length / 2 * Real.sin |coachRot coach|, 0,
       coach.length / 2 * Real.cos |coachRot coach|) +
      (coach.width / 2 * Real.cos |coachRot coach|, 0,
       -(coach.width / 2 * Real.sin |coachRot coach|)) := by
  refine ⟨?_, ?_, ?_, ?_, ?_⟩
  · intro h
    simp only [carBayInsts, if_pos h]
    exact List.mem_append.mpr (Or.inl (List.mem_append.mpr (Or.inr
      (List.mem_singleton.mpr rfl))))
  · simp only [carPosL, carZ, carDist, Prod.mk_add_mk, Prod.mk.injEq]
    refine ⟨by ring, by ring, by ring⟩
  · simp only [carPosR, carZ, carDist, Prod.mk_add_mk, Prod.mk.injEq]
    refine ⟨by ring, by ring, by ring⟩
  · intro h
    simp only [coachBayInsts, if_pos h]
    exact List.mem_cons.mpr (Or.inr (List.mem_singleton.mpr rfl))
  · simp only [coachPos, Prod.mk_add_mk, Prod.mk.injEq]
    refine ⟨by ring, by ring, by ring⟩

/-- Witness for C9's amended theorem: with the constant-one stub the
bay-0 draws succeed and the default-config vehicles are emitted. -/
theorem c9_amended_witness :
    (0.3:ℝ) < 1 ∧
    Inst.vehicle ⌊(1:ℝ) * 1⌋ (carPosL defaultStructure defaultCar 0).1
      (carPosL defaultStructure defaultCar 0).2.1
      (carPosL defaultStructure defaultCar 0).2.2 (rotL + π) ∈
      (carBayInsts defaultStructure defaultCar (fun _ => 1) 0 0).1 := by
  refine ⟨by norm_num, ?_⟩
  exact (c9_amended_vehicle_anchor defaultStructure defaultCar defaultCoach
    (fun _ => 1) 0 0).1 (by norm_num)
